import Mathlib

/-!
Verification of the SiriDB insert pipeline core (`insert.c`) and of the
admin-client request timeout logic (`client.c`).

The qpack wire codec, the pool router and the timestamp window check are
external collaborators of the code under verification; following the
specification they are modelled at token granularity: an unpacker is a list
of pending tokens, `qp_next` pops one token (`none` stands for `QP_END`),
and a packer is the list of tokens appended so far.
-/

namespace SiriDBInsert

/-- Modelled from the spec: the type-tagged tokens of the qpack wire format
(the qpack codec itself is an external collaborator of `insert.c`).
`array n` is the fixed-arity `ARRAYn` header; `ARRAY2` is `array 2`.
A `raw` token carries its bytes. A `double` token carries its (opaque)
IEEE-754 bit pattern; the classifier only copies doubles, never computes
with them. -/
inductive QpToken where
  | int64 (i : Int)
  | double (bits : Nat)
  | raw (s : List Nat)
  | array (n : Nat)
  | arrayOpen
  | arrayClose
  | mapOpen
  | mapClose
  deriving DecidableEq, Repr

/-- `qp_next`: pull one token from the unpacker; `none` models `QP_END`. -/
def qp_next : List QpToken → Option QpToken × List QpToken
  | [] => (none, [])
  | t :: ts => (some t, ts)

/-- Modelled from the spec: `qp_is_array` holds for the fixed-arity array
headers `ARRAYn` and for `ARRAY_OPEN` (qpack is external to `insert.c`). -/
def qp_is_array : Option QpToken → Bool
  | some (.array _) => true
  | some .arrayOpen => true
  | _ => false

/-- Modelled from the spec: `qp_is_map` holds for `MAP_OPEN`
(qpack is external to `insert.c`). -/
def qp_is_map : Option QpToken → Bool
  | some .mapOpen => true
  | _ => false

/-- Modelled from the spec: the configuration and collaborators `insert.c`
consumes: the pool count, the pool router `siridb_pool_sn_raw`
(a total function from series-name bytes to a pool id), and the
`[ts_min, ts_max]` timestamp window. -/
structure Siridb where
  poolCount : Nat
  route : List Nat → Nat
  tsMin : Int
  tsMax : Int

/-- Modelled from the spec: `siridb_int64_valid_ts` validates a timestamp
against the configured `[ts_min, ts_max]` window. -/
def siridb_int64_valid_ts (db : Siridb) (ts : Int) : Bool :=
  db.tsMin ≤ ts && ts ≤ db.tsMax

/-- The insert error enumeration `siridb_insert_err_t` (declared in
`insert.h`; the message table in `insert.c` has one entry per error). -/
inductive siridb_insert_err where
  | expecting_array
  | expecting_series_name
  | expecting_map_or_array
  | expecting_integer_ts
  | timestamp_out_of_range
  | unsupported_value
  | expecting_at_least_one_point
  deriving DecidableEq, Repr

/-- `SIRIDB_INSERT_ERR_SIZE`: the message table in `insert.c` has seven
entries. -/
def SIRIDB_INSERT_ERR_SIZE : Nat := 7

/-- Modelled from the spec: the numeric values of `siridb_insert_err_t`,
`-SIRIDB_INSERT_ERR_SIZE .. -1` in declaration order (the enum declaration
lives in `insert.h`, outside the given sources). -/
def errCode : siridb_insert_err → Int
  | .expecting_array => -7
  | .expecting_series_name => -6
  | .expecting_map_or_array => -5
  | .expecting_integer_ts => -4
  | .timestamp_out_of_range => -3
  | .unsupported_value => -2
  | .expecting_at_least_one_point => -1

/-- Append one token to the packer of pool `pool`
(a `qp_add_*` call on `packer[pool]`). -/
def pkAdd (pks : List (List QpToken)) (pool : Nat) (t : QpToken) :
    List (List QpToken) :=
  pks.set pool (pks.getD pool [] ++ [t])

/-- Append several tokens to the packer of pool `pool`. -/
def pkAddMany (pks : List (List QpToken)) (pool : Nat) (ts : List QpToken) :
    List (List QpToken) :=
  pks.set pool (pks.getD pool [] ++ ts)

/-- The inner `for` loop of `assign_by_map` in `insert.c`: as long as the
pending token `tp` is `QP_ARRAY2`, emit `ARRAY2`, read the timestamp (must
be `INT64` and inside the window), emit it, read the value (must be `RAW`,
`INT64` or `DOUBLE`), emit it, bump the counter, and pull the next token.
Returns the token that ended the loop together with the remaining stream,
the packers, and the counter. An exhausted stream pulls `QP_END` (`none`),
which ends the loop. -/
def pointsLoop (db : Siridb) (pool : Nat) :
    Option QpToken → List QpToken → List (List QpToken) → Nat →
    Except siridb_insert_err
      (Option QpToken × List QpToken × List (List QpToken) × Nat)
  | tp, toks, pks, count =>
    if tp = some (QpToken.array 2) then
      let pks1 := pkAdd pks pool (QpToken.array 2)
      match toks with
      | QpToken.int64 ts :: toks1 =>
        if siridb_int64_valid_ts db ts then
          let pks2 := pkAdd pks1 pool (QpToken.int64 ts)
          match toks1 with
          | QpToken.raw s :: toks2 =>
            let pks3 := pkAdd pks2 pool (QpToken.raw s)
            match toks2 with
            | [] => .ok (none, [], pks3, count + 1)
            | t :: rest => pointsLoop db pool (some t) rest pks3 (count + 1)
          | QpToken.int64 i :: toks2 =>
            let pks3 := pkAdd pks2 pool (QpToken.int64 i)
            match toks2 with
            | [] => .ok (none, [], pks3, count + 1)
            | t :: rest => pointsLoop db pool (some t) rest pks3 (count + 1)
          | QpToken.double d :: toks2 =>
            let pks3 := pkAdd pks2 pool (QpToken.double d)
            match toks2 with
            | [] => .ok (none, [], pks3, count + 1)
            | t :: rest => pointsLoop db pool (some t) rest pks3 (count + 1)
          | _ => .error .unsupported_value
        else .error .timestamp_out_of_range
      | _ => .error .expecting_integer_ts
    else .ok (tp, toks, pks, count)
  termination_by _ toks _ _ => toks.length
  decreasing_by all_goals (simp only [List.length_cons]; omega)

/-- The outer `while (tp == QP_RAW)` loop of `assign_by_map` in `insert.c`:
for each series name, route it to its pool, emit the name as a terminated
raw (`qp_add_raw_term` appends the NUL byte) and `ARRAY_OPEN` into that
pool's packer, require an array of points whose first token is `QP_ARRAY2`,
run the point loop, skip the closing `QP_ARRAY_CLOSE` of the input, emit
`ARRAY_CLOSE`, and continue with the next token.  When the loop ends on a
token that is neither `QP_END` nor `QP_MAP_CLOSE` the whole batch fails
with `ERR_EXPECTING_SERIES_NAME`; otherwise the point count is returned. -/
def seriesLoop (db : Siridb) :
    Option QpToken → List QpToken → List (List QpToken) → Nat →
    Except siridb_insert_err (List (List QpToken) × Nat)
  | some (QpToken.raw name), toks, pks, count =>
    let pool := db.route name
    let pks1 := pkAdd pks pool (QpToken.raw (name ++ [0]))
    match toks with
    | t1 :: toks1 =>
      if qp_is_array (some t1) then
        let pks2 := pkAdd pks1 pool QpToken.arrayOpen
        match toks1 with
        | t2 :: toks2 =>
          if t2 = QpToken.array 2 then
            match hp : pointsLoop db pool (some t2) toks2 pks2 count with
            | .error e => .error e
            | .ok (tp', toks', pks', count') =>
              let pks'' := pkAdd pks' pool QpToken.arrayClose
              if tp' = some QpToken.arrayClose then
                match toks' with
                | [] => seriesLoop db none [] pks'' count'
                | t :: rest => seriesLoop db (some t) rest pks'' count'
              else seriesLoop db tp' toks' pks'' count'
          else .error .expecting_at_least_one_point
        | [] => .error .expecting_at_least_one_point
      else .error .expecting_array
    | [] => .error .expecting_array
  | tp, _, pks, count =>
    if tp = none ∨ tp = some QpToken.mapClose then .ok (pks, count)
    else .error .expecting_series_name
  termination_by _ toks _ _ => toks.length
  decreasing_by
    all_goals
      (have hlem : ∀ (tp : Option QpToken) (toks : List QpToken)
            (pks : List (List QpToken)) (count : Nat) tp' toks' pks' count',
            pointsLoop db pool tp toks pks count
              = Except.ok (tp', toks', pks', count') →
            toks'.length ≤ toks.length := by
          intro tp toks pks count
          induction tp, toks, pks, count using pointsLoop.induct db pool
          all_goals intro tp' toks' pks' count' h
          all_goals rw [pointsLoop] at h
          all_goals simp_all
          all_goals
            (rename_i ih
             have hih := ih _ _ _ _ rfl rfl rfl rfl
             omega)
       have hb := hlem _ _ _ _ _ _ _ _ hp
       simp only [List.length_cons] at hb ⊢
       omega)

/-- `assign_by_map` in `insert.c`: pull the first token and run the series
loop with the point counter at zero. -/
def assign_by_map (db : Siridb) (toks : List QpToken)
    (pks : List (List QpToken)) :
    Except siridb_insert_err (List (List QpToken) × Nat) :=
  match qp_next toks with
  | (tp, toks') => seriesLoop db tp toks' pks 0

/-- The per-pool packers as initialized by `siridb_insert_assign_pools`:
one fresh packer per pool, each already holding `QP_MAP_OPEN`. -/
def initPackers (db : Siridb) : List (List QpToken) :=
  List.replicate db.poolCount [QpToken.mapOpen]

/-- `siridb_insert_assign_pools` in `insert.c`: initialize one packer per
pool with `QP_MAP_OPEN`, then dispatch on the top-level token: an array
returns 0 immediately, a map is classified by `assign_by_map`, anything
else is `ERR_EXPECTING_MAP_OR_ARRAY`.  The C function returns the count
(or negative error) and fills the packers through an out-parameter; the
model returns both. -/
def siridb_insert_assign_pools (db : Siridb) (toks : List QpToken) :
    Except siridb_insert_err (List (List QpToken) × Nat) :=
  let pks := initPackers db
  match qp_next toks with
  | (tp, toks') =>
    if qp_is_array tp then .ok (pks, 0)
    else if qp_is_map tp then assign_by_map db toks' pks
    else .error .expecting_map_or_array

/-! ## Abstract payloads and their token encodings -/

/-- A decoded point value: the three value types the classifier accepts. -/
inductive QpVal where
  | vint (i : Int)
  | vdouble (bits : Nat)
  | vraw (s : List Nat)
  deriving DecidableEq, Repr

/-- The token a point value is carried by on the wire. -/
def valTok : QpVal → QpToken
  | .vint i => .int64 i
  | .vdouble b => .double b
  | .vraw s => .raw s

/-- One series of an insert payload: a series name with its ordered points. -/
structure SeriesEntry where
  name : List Nat
  points : List (Int × QpVal)
  deriving DecidableEq, Repr

/-- Wire encoding of one point: an `ARRAY2` header, the timestamp, the value. -/
def encodePoint (p : Int × QpVal) : List QpToken :=
  [QpToken.array 2, QpToken.int64 p.1, valTok p.2]

/-- Wire encoding of one series entry inside the top-level map:
the name as a raw, then an open array of its encoded points. -/
def encSeries (s : SeriesEntry) : List QpToken :=
  QpToken.raw s.name :: QpToken.arrayOpen ::
    (s.points.flatMap encodePoint ++ [QpToken.arrayClose])

/-- Wire encoding of a map payload (`END`-terminated). -/
def encodePayload (pl : List SeriesEntry) : List QpToken :=
  QpToken.mapOpen :: pl.flatMap encSeries

/-- The tokens `assign_by_map` writes for one series into its pool's packer:
the NUL-terminated name (`qp_add_raw_term`), `ARRAY_OPEN`, the re-encoded
points, `ARRAY_CLOSE`. -/
def seriesBlock (s : SeriesEntry) : List QpToken :=
  QpToken.raw (s.name ++ [0]) :: QpToken.arrayOpen ::
    (s.points.flatMap encodePoint ++ [QpToken.arrayClose])

/-- Total number of points of a payload. -/
def totalPoints (pl : List SeriesEntry) : Nat :=
  (pl.map (fun s => s.points.length)).sum

/-- Appending the series blocks of a payload pool-by-pool, in payload order:
this is the net effect of the classifier on the packers. -/
def appendBlocks (db : Siridb) :
    List (List QpToken) → List SeriesEntry → List (List QpToken)
  | pks, [] => pks
  | pks, s :: rest =>
    appendBlocks db (pkAddMany pks (db.route s.name) (seriesBlock s)) rest

/-- Well-formedness of one series entry relative to the packer array:
its pool is in range, it has at least one point, and every timestamp is
inside the configured window. -/
def wfSeries (db : Siridb) (pksLen : Nat) (s : SeriesEntry) : Prop :=
  db.route s.name < pksLen ∧ s.points ≠ [] ∧
    ∀ q ∈ s.points, siridb_int64_valid_ts db q.1 = true

/-- Run the series loop on a raw token stream from an arbitrary counter:
pull the first token, then loop. `assign_by_map` is this with counter 0. -/
def seriesFrom (db : Siridb) (stream : List QpToken)
    (pks : List (List QpToken)) (count : Nat) :
    Except siridb_insert_err (List (List QpToken) × Nat) :=
  match qp_next stream with
  | (tp, toks) => seriesLoop db tp toks pks count

/-- The sub-batch the classifier builds for pool `k` out of a payload:
the packer's `MAP_OPEN` followed by the blocks of the series routed to
pool `k`, in payload order. -/
def subBatch (db : Siridb) (pl : List SeriesEntry) (k : Nat) : List QpToken :=
  QpToken.mapOpen ::
    (pl.filter (fun s => db.route s.name == k)).flatMap seriesBlock

/-- Number of points written into a packer token list: each point
contributes exactly one `ARRAY2` header (names, timestamps and values are
never `ARRAY2` tokens). -/
def packerPoints (pk : List QpToken) : Nat :=
  pk.countP (fun t => t == QpToken.array 2)

/-- Number of points of a payload whose series the router assigns to
pool `k`. -/
def routedPoints (db : Siridb) (pl : List SeriesEntry) (k : Nat) : Nat :=
  totalPoints (pl.filter (fun s => db.route s.name == k))

/-- The value tokens the classifier accepts for a point
(the `QP_RAW`, `QP_INT64`, `QP_DOUBLE` cases of the `switch`). -/
def isValueTok : QpToken → Bool
  | .raw _ => true
  | .int64 _ => true
  | .double _ => true
  | _ => false

/-! ## The insert dispatcher (`send_points_to_pools`) -/

/-- Modelled from the spec: the series value type inferred from a point's
value token (`siridb_qp_map_tp`, external to the given sources; the type of
a new series is inferred from the first point's value type). -/
inductive QpTag where
  | tagInt64
  | tagDouble
  | tagRaw
  | tagNone
  deriving DecidableEq, Repr

/-- Modelled from the spec: `siridb_qp_map_tp` on the pulled value token. -/
def siridb_qp_map_tp : Option QpToken → QpTag
  | some (.int64 _) => .tagInt64
  | some (.double _) => .tagDouble
  | some (.raw _) => .tagRaw
  | _ => .tagNone

/-- Modelled from the spec: the series registry (`siridb->series`), a
dictionary from C-string series names to created series with their inferred
value type (`ct_get_sure` / `ct_is_empty` / `siridb_create_series` are
external collaborators). -/
def Registry : Type := List (List Nat × QpTag)

/-- The C string a raw byte sequence denotes: its bytes up to the first NUL
(`qp_series_name->via->raw` is used as a NUL-terminated string). -/
def cstr (s : List Nat) : List Nat := s.takeWhile (fun b => b != 0)

/-- Weight of a pending pulled token, for the termination measure of the
local series loop: a pulled token still to be dispatched counts one. -/
def tokWeight : Option QpToken → Nat
  | some _ => 1
  | none => 0

/-- The inner skip loop of `send_points_to_pools`:
`while ((tp = qp_next(unpacker, qp_series_name)) == QP_ARRAY2)` pull and
discard a timestamp and a value. Returns the token that ended the loop and
the rest of the stream (`none` models `QP_END`). -/
def skipPoints : List QpToken → Option QpToken × List QpToken
  | [] => (none, [])
  | QpToken.array 2 :: _ :: _ :: rest2 => skipPoints rest2
  | QpToken.array 2 :: _ => (none, [])
  | t :: rest => (some t, rest)
  termination_by l => l.length
  decreasing_by all_goals (simp only [List.length_cons]; omega)

/-- The `while (tp == QP_RAW)` loop `send_points_to_pools` runs on the local
pool's sub-batch: for each series name, `ct_get_sure` the NUL-terminated
name in the registry; read (unconditionally) the array-open token, the
first point's `ARRAY2` header, its timestamp and its value; when the
registry slot is empty, create the series with the value type inferred from
that first value; then skip the remaining points and, when the loop ended
on `QP_ARRAY_CLOSE`, pull the next token.  The points are read and
discarded: the source appends nothing to storage. Returns the final
registry and the list of series created (in order, with inferred type). -/
def localLoop :
    Option QpToken → List QpToken → Registry → List (List Nat × QpTag) →
    Registry × List (List Nat × QpTag)
  | some (QpToken.raw name), toks, reg, created =>
    let toks1 := (qp_next toks).2
    let toks2 := (qp_next toks1).2
    let toks3 := (qp_next toks2).2
    let tval := (qp_next toks3).1
    let toks4 := (qp_next toks3).2
    let key := cstr name
    let regList : List (List Nat × QpTag) := reg
    let isNew : Bool := ! (regList.map Prod.fst).contains key
    let reg' : Registry :=
      if isNew then regList ++ [(key, siridb_qp_map_tp tval)] else regList
    let created' :=
      if isNew then created ++ [(key, siridb_qp_map_tp tval)] else created
    match hs : skipPoints toks4 with
    | (some QpToken.arrayClose, toks5) =>
      match toks5 with
      | [] => localLoop none [] reg' created'
      | t :: rest => localLoop (some t) rest reg' created'
    | (tp, toks5) => localLoop tp toks5 reg' created'
  | _, _, reg, created => (reg, created)
  termination_by tp toks _ _ => toks.length + tokWeight tp
  decreasing_by
    all_goals
      (have hqn : ∀ l : List QpToken, (qp_next l).2.length ≤ l.length := by
         intro l
         cases l <;> simp [qp_next]
       have hskip : ∀ (l : List QpToken) tp rest, skipPoints l = (tp, rest) →
           rest.length + tokWeight tp ≤ l.length := by
         intro l
         induction l using skipPoints.induct
         all_goals intro tp rest h
         all_goals simp only [skipPoints] at h
         all_goals rw [Prod.mk.injEq] at h
         all_goals try (obtain ⟨h1, h2⟩ := h; subst h1; subst h2;
                        simp [tokWeight])
         all_goals
           (rename_i rest2 ih
            have hih := ih (skipPoints rest2).1 (skipPoints rest2).2 rfl
            simp only [tokWeight] at hih
            omega)
       first
       | (simp only [List.length_nil, List.length_cons, tokWeight]
          omega)
       | (have h1 : toks1.length ≤ toks.length := hqn toks
          have h2 : toks2.length ≤ toks1.length := hqn toks1
          have h3 : toks3.length ≤ toks2.length := hqn toks2
          have h4 : toks4.length ≤ toks3.length := hqn toks3
          have hb := hskip _ _ _ hs
          simp only [List.length_nil, List.length_cons, tokWeight] at hb ⊢
          omega))

/-- `siridb_insert_t`: the insert job handed to `send_points_to_pools`
(pid, total point count `size`, and the per-pool packers; the client handle
is kept abstract). -/
structure siridb_insert_t where
  pid : Nat
  size : Nat
  packer : List (List QpToken)
  deriving DecidableEq, Repr

/-- One package sent back to the originating client
(`sirinet_new_pkg` + `sirinet_send_pkg`): its pid and its single-entry map
body. -/
structure ReplyPkg where
  pid : Nat
  key : String
  msg : String
  deriving DecidableEq, Repr

/-- The observable effects of one `send_points_to_pools` run: the registry
afterwards, the series created (with inferred type), the points appended to
storage, the sub-batches sent to peer pools, and the replies sent to the
client.  The `appends` and `sentToPools` traces record every such call the
source makes; the source makes none, so they are built empty. -/
structure DispatchResult where
  reg : Registry
  created : List (List Nat × QpTag)
  appends : List (List Nat × Int × QpVal)
  sentToPools : List (Nat × List QpToken)
  replies : List ReplyPkg

/-- `send_points_to_pools` in `insert.c`: iterate over the packers; only the
local pool's packer (`n == pool`) is unpacked — pull the map-open token and
the first series name, then run the local series loop (registry
get-or-create only; no storage append).  The other pools' packers are never
touched, and no package is sent to any peer pool.  Afterwards one success
reply `{"success_msg": "Inserted <size> point(s) successfully."}` is always
sent to the client, and the job is freed. -/
def send_points_to_pools (insert : siridb_insert_t) (pool : Nat)
    (reg : Registry) : DispatchResult :=
  let res :=
    if pool < insert.packer.length then
      let toks := insert.packer.getD pool []
      localLoop (qp_next (qp_next toks).2).1 (qp_next (qp_next toks).2).2
        reg []
    else (reg, [])
  { reg := res.1
    created := res.2
    appends := []
    sentToPools := []
    replies := [{ pid := insert.pid, key := "success_msg",
                  msg := "Inserted " ++ toString insert.size
                    ++ " point(s) successfully." }] }

/-! ## The admin client request/timeout state machine (`client.c`) -/

/-- `CLIENT_REQUEST_TIMEOUT` in `client.c`: 15000 milliseconds. -/
def CLIENT_REQUEST_TIMEOUT : Nat := 15000

/-- `CLIENT_FLAGS_TIMEOUT` in `client.c`. -/
def CLIENT_FLAGS_TIMEOUT : Nat := 1

/-- `CLIENT_REQUEST_INIT` in the request enum of `client.c`. -/
def CLIENT_REQUEST_INIT : Nat := 0

/-- `CLIENT_REQUEST_STATUS` in the request enum of `client.c`. -/
def CLIENT_REQUEST_STATUS : Nat := 1

/-- Modelled from the spec: the server-protocol package types
`CLIENT_on_data` dispatches on (`cproto_server_t` is declared in
`protocol.h`, outside the given sources); the grouped
`CPROTO_ERR_MSG`/`QUERY`/`INSERT`/`SERVER`/`POOL`/`USER_ACCESS` cases are
one constructor, and every type not named in the switch is `unexpected`. -/
inductive CProto where
  | resAuthSuccess
  | resQuery
  | errAuthCredentials
  | errAuthUnknownDb
  | errWithMsg
  | unexpected
  deriving DecidableEq, Repr

/-- The mutable per-request state of `siri_admin_client_t` the timeout logic
touches: the current request kind and the flag word. -/
structure AdmClient where
  request : Nat
  flags : Nat
  deriving DecidableEq, Repr

/-- What `CLIENT_on_data` did with an incoming package: dropped it with only
a log line because the request had timed out earlier, or dispatched it to
one of the handlers of the `switch`. -/
inductive DataReaction where
  | droppedTimedOut
  | handledAuthSuccess
  | handledRequestStatus
  | handledErr
  deriving DecidableEq, Repr

/-- `CLIENT_on_auth_success` in `client.c`: switch the request state to
`CLIENT_REQUEST_STATUS` (and send the status query). -/
def CLIENT_on_auth_success (c : AdmClient) : AdmClient :=
  { c with request := CLIENT_REQUEST_STATUS }

/-- `CLIENT_on_data` in `client.c`: when `flags & CLIENT_FLAGS_TIMEOUT` is
set, the package is only logged
("Client response received which was timed-out earlier") and dropped;
otherwise the timer is stopped and the package is dispatched on its type
(auth success, query response for the status request, or one of the error
handlers). -/
def CLIENT_on_data (c : AdmClient) (tp : CProto) : AdmClient × DataReaction :=
  if c.flags &&& CLIENT_FLAGS_TIMEOUT ≠ 0 then (c, .droppedTimedOut)
  else
    match tp with
    | .resAuthSuccess => (CLIENT_on_auth_success c, .handledAuthSuccess)
    | .resQuery =>
      if c.request = CLIENT_REQUEST_STATUS then (c, .handledRequestStatus)
      else (c, .handledErr)
    | _ => (c, .handledErr)

/-- `CLIENT_request_timeout` in `client.c`: the timer fired — set the
timeout flag (`adm_client->flags |= CLIENT_FLAGS_TIMEOUT`) and report the
request-timeout error.  The flag is never cleared anywhere in `client.c`. -/
def CLIENT_request_timeout (c : AdmClient) : AdmClient :=
  { c with flags := c.flags ||| CLIENT_FLAGS_TIMEOUT }

/-- The events that can reach the admin client state after the request was
sent: the request timer fires, or a package arrives on the socket. -/
inductive ClientEvent where
  | timerFires
  | dataArrives (tp : CProto)
  deriving DecidableEq, Repr

/-- One event's effect on the admin client state. -/
def clientStep (c : AdmClient) : ClientEvent → AdmClient
  | .timerFires => CLIENT_request_timeout c
  | .dataArrives tp => (CLIENT_on_data c tp).1

/-- Run a sequence of events against the admin client state. -/
def runEvents (c : AdmClient) : List ClientEvent → AdmClient
  | [] => c
  | e :: es => runEvents (clientStep c e) es

/-- The test `adm_client->flags & CLIENT_FLAGS_TIMEOUT` at the top of
`CLIENT_on_data`. -/
def timedOut (c : AdmClient) : Prop :=
  c.flags &&& CLIENT_FLAGS_TIMEOUT ≠ 0

instance (c : AdmClient) : Decidable (timedOut c) := by
  unfold timedOut
  infer_instance

/-! ## The insert error message table -/

/-- The `err_msg` table in `insert.c`: one fixed prose message per insert
error, in enum-declaration order. -/
def err_msg : List String :=
  ["Expecting an array with points.",
   "Expecting a series name (string value) with an array of points where each point should be an integer time-stamp with a value.",
   "Expecting an array or map containing series and points.",
   "Expecting an integer value as time-stamp.",
   "Received at least one time-stamp which is out-of-range.",
   "Unsupported value received. (only integer, string and float values are supported).",
   "Expecting a series to have at least one point."]

/-- `siridb_insert_err_msg` in `insert.c`: index the message table at
`err + SIRIDB_INSERT_ERR_SIZE`.  In C an index outside `[0, 6]` reads out
of the table's bounds (undefined behaviour); the model returns `none`
there. -/
def siridb_insert_err_msg (err : Int) : Option String :=
  if 0 ≤ err + (SIRIDB_INSERT_ERR_SIZE : Int)
  then err_msg[(err + (SIRIDB_INSERT_ERR_SIZE : Int)).toNat]?
  else none

/-! ## Concrete instances used by the witnesses -/

/-- A concrete two-pool configuration: series are routed by the first name
byte modulo 2, timestamps must lie in `[0, 2000000000]`. -/
def dbW : Siridb :=
  { poolCount := 2, route := fun s => s.headD 0 % 2,
    tsMin := 0, tsMax := 2000000000 }

/-- A concrete payload: series `[120]` (one integer point, routed to
pool 0) and series `[121]` (a double point and a raw point, routed to
pool 1). -/
def plW : List SeriesEntry :=
  [⟨[120], [(1000, QpVal.vint 1)]⟩,
   ⟨[121], [(1001, QpVal.vdouble 5), (1002, QpVal.vraw [97])]⟩]

instance (db : Siridb) (n : Nat) (s : SeriesEntry) :
    Decidable (wfSeries db n s) := by
  unfold wfSeries
  infer_instance

/-- A series' block occurs (contiguously) inside a sub-batch: the sub-batch
is the block of the series — its NUL-terminated name followed by its points
re-encoded in input order — surrounded by other content. -/
def containsSeriesBlock (sub : List QpToken) (s : SeriesEntry) : Prop :=
  ∃ u v, sub = u ++ seriesBlock s ++ v

/-- A concrete two-series payload for the dispatcher instances: series
`[120]` (one point, routed to pool 0 of `dbW`) and series `[121]` (one
point, routed to pool 1). -/
def plW6 : List SeriesEntry :=
  [⟨[120], [(1000, QpVal.vint 1)]⟩, ⟨[121], [(1001, QpVal.vint 2)]⟩]

/-- The classified insert job for `plW6` under `dbW`: the per-pool packers
the classifier produced, with the total point count. -/
def insW : siridb_insert_t :=
  { pid := 42, size := totalPoints plW6,
    packer := (List.range dbW.poolCount).map (subBatch dbW plW6) }

/-! ## Packer bookkeeping lemmas -/

theorem pkAdd_eq_pkAddMany (pks : List (List QpToken)) (pool : Nat)
    (t : QpToken) : pkAdd pks pool t = pkAddMany pks pool [t] := rfl

theorem pkAddMany_append (pks : List (List QpToken)) (pool : Nat)
    (a b : List QpToken) :
    pkAddMany (pkAddMany pks pool a) pool b = pkAddMany pks pool (a ++ b) := by
  unfold pkAddMany
  by_cases h : pool < pks.length
  · rw [List.set_set]
    congr 1
    simp [List.getD, List.getElem?_set, h]
  · have hle : pks.length ≤ pool := Nat.le_of_not_lt h
    simp [List.set_eq_of_length_le hle]

theorem pkAddMany_length (pks : List (List QpToken)) (pool : Nat)
    (a : List QpToken) : (pkAddMany pks pool a).length = pks.length := by
  simp [pkAddMany]

theorem pkAddMany_getD_same (pks : List (List QpToken)) (pool : Nat)
    (a : List QpToken) (h : pool < pks.length) :
    (pkAddMany pks pool a).getD pool [] = pks.getD pool [] ++ a := by
  simp [pkAddMany, List.getD, List.getElem?_set, h]

theorem pkAddMany_getD_ne (pks : List (List QpToken)) (pool k : Nat)
    (a : List QpToken) (h : pool ≠ k) :
    (pkAddMany pks pool a).getD k [] = pks.getD k [] := by
  simp [pkAddMany, List.getD, List.getElem?_set, h]

/-! ## Evaluation of the loops on well-formed encoded input -/

theorem valTok_vint (i : Int) : valTok (QpVal.vint i) = QpToken.int64 i := rfl

theorem valTok_vdouble (b : Nat) :
    valTok (QpVal.vdouble b) = QpToken.double b := rfl

theorem valTok_vraw (s : List Nat) :
    valTok (QpVal.vraw s) = QpToken.raw s := rfl

/-- Running the point loop over the encoding of a non-empty point list with
valid timestamps: every point is copied (re-encoded) into pool `pool`'s
packer, the loop stops on the closing `ARRAY_CLOSE`, and the counter grows
by the number of points. -/
theorem pointsLoop_enc (db : Siridb) (pool : Nat) (p : Int × QpVal)
    (ps : List (Int × QpVal)) (rest : List QpToken)
    (pks : List (List QpToken)) (count : Nat)
    (hv : ∀ q ∈ p :: ps, siridb_int64_valid_ts db q.1 = true) :
    pointsLoop db pool (some (QpToken.array 2))
      (QpToken.int64 p.1 :: valTok p.2 ::
        (ps.flatMap encodePoint ++ QpToken.arrayClose :: rest))
      pks count
    = .ok (some QpToken.arrayClose, rest,
        pkAddMany pks pool (encodePoint p ++ ps.flatMap encodePoint),
        count + (ps.length + 1)) := by
  induction ps generalizing p pks count with
  | nil =>
    obtain ⟨t, v⟩ := p
    have hv0 : siridb_int64_valid_ts db t = true := hv (t, v) (by simp)
    cases v <;>
      simp [pointsLoop, hv0, encodePoint, valTok, pkAdd_eq_pkAddMany,
        pkAddMany_append]
  | cons q qs ih =>
    obtain ⟨t, v⟩ := p
    have hv0 : siridb_int64_valid_ts db t = true := hv (t, v) (by simp)
    have hv' : ∀ r ∈ q :: qs, siridb_int64_valid_ts db r.1 = true := by
      intro r hr
      exact hv r (by simp at hr ⊢; tauto)
    have hqenc : (q :: qs).flatMap encodePoint ++ QpToken.arrayClose :: rest
        = QpToken.array 2 :: (QpToken.int64 q.1 :: valTok q.2 ::
            (qs.flatMap encodePoint ++ QpToken.arrayClose :: rest)) := by
      simp [encodePoint]
    rw [hqenc]
    cases v <;>
      (rw [pointsLoop]
       simp only [valTok_vint, valTok_vdouble, valTok_vraw, hv0, reduceIte]
       rw [ih q _ _ hv']
       simp [encodePoint, valTok, pkAdd_eq_pkAddMany, pkAddMany_append]
       omega)

theorem assign_by_map_eq_seriesFrom (db : Siridb) (toks : List QpToken)
    (pks : List (List QpToken)) :
    assign_by_map db toks pks = seriesFrom db toks pks 0 := rfl

theorem seriesFrom_match (db : Siridb) (stream : List QpToken)
    (pks : List (List QpToken)) (count : Nat) :
    (match stream with
     | [] => seriesLoop db none [] pks count
     | t :: ts => seriesLoop db (some t) ts pks count)
    = seriesFrom db stream pks count := by
  cases stream <;> rfl

/-- Master evaluation lemma: running the series loop on the encoding of a
well-formed payload followed by an arbitrary continuation appends every
series' block to its routed pool's packer, adds the payload's point count,
and then continues on the continuation. -/
theorem seriesFrom_enc (db : Siridb) (pl : List SeriesEntry)
    (rest : List QpToken) (pks : List (List QpToken)) (count : Nat)
    (hwf : ∀ s ∈ pl, wfSeries db pks.length s) :
    seriesFrom db (pl.flatMap encSeries ++ rest) pks count
    = seriesFrom db rest (appendBlocks db pks pl) (count + totalPoints pl) := by
  induction pl generalizing pks count with
  | nil => simp [appendBlocks, totalPoints]
  | cons s pl ih =>
    obtain ⟨hroute, hne, hts⟩ := hwf s (by simp)
    obtain ⟨p, ps, hps⟩ := List.exists_cons_of_ne_nil hne
    have hstream : ((s :: pl).flatMap encSeries ++ rest)
        = QpToken.raw s.name :: QpToken.arrayOpen ::
            (s.points.flatMap encodePoint ++ QpToken.arrayClose ::
              (pl.flatMap encSeries ++ rest)) := by
      simp [encSeries]
    rw [hstream]
    have hpts : ∀ q ∈ p :: ps, siridb_int64_valid_ts db q.1 = true := by
      rw [← hps]; exact hts
    rw [seriesFrom]
    simp only [qp_next]
    rw [seriesLoop]
    simp only [qp_is_array, reduceIte, hps, List.flatMap_cons, encodePoint,
      List.cons_append, List.append_assoc, List.nil_append]
    have hwf' : ∀ s' ∈ pl,
        wfSeries db (pkAddMany pks (db.route s.name) (seriesBlock s)).length s' := by
      rw [pkAddMany_length]
      intro s' hs'
      exact hwf s' (by simp [hs'])
    have hih := ih (pkAddMany pks (db.route s.name) (seriesBlock s))
      (count + (ps.length + 1)) hwf'
    have hcnt : count + (ps.length + 1) + totalPoints pl
        = count + totalPoints (s :: pl) := by
      simp [totalPoints, hps]
      omega
    rw [hcnt] at hih
    have hABr : appendBlocks db pks (s :: pl)
        = appendBlocks db (pkAddMany pks (db.route s.name) (seriesBlock s)) pl :=
      rfl
    rw [hABr, ← hih]
    split
    · rename_i e hp
      rw [pointsLoop_enc db (db.route s.name) p ps _ _ count hpts] at hp
      cases hp
    · rename_i tp' toks' pks' count' hp
      rw [pointsLoop_enc db (db.route s.name) p ps _ _ count hpts] at hp
      simp only [Except.ok.injEq, Prod.mk.injEq] at hp
      obtain ⟨h1, h2, h3, h4⟩ := hp
      subst h1
      subst h2
      subst h3
      subst h4
      simp only [reduceIte]
      have hpk : pkAdd (pkAddMany
            (pkAdd (pkAdd pks (db.route s.name)
              (QpToken.raw (s.name ++ [0]))) (db.route s.name) QpToken.arrayOpen)
            (db.route s.name) (encodePoint p ++ ps.flatMap encodePoint))
            (db.route s.name) QpToken.arrayClose
          = pkAddMany pks (db.route s.name) (seriesBlock s) := by
        simp [pkAdd_eq_pkAddMany, pkAddMany_append, seriesBlock, hps,
          encodePoint]
      split
      all_goals rename_i heq hheq1
      all_goals rw [heq]
      all_goals simp only [seriesFrom, qp_next]
      all_goals rw [hpk]

theorem appendBlocks_length (db : Siridb) (pl : List SeriesEntry)
    (pks : List (List QpToken)) :
    (appendBlocks db pks pl).length = pks.length := by
  induction pl generalizing pks with
  | nil => rfl
  | cons s pl ih => rw [appendBlocks, ih, pkAddMany_length]

/-- Pool `k`'s packer after appending a payload's blocks holds exactly the
blocks of the series routed to `k`, in payload order. -/
theorem appendBlocks_getD (db : Siridb) (pl : List SeriesEntry)
    (pks : List (List QpToken)) (k : Nat)
    (hroute : ∀ s ∈ pl, db.route s.name < pks.length) :
    (appendBlocks db pks pl).getD k []
      = pks.getD k [] ++
          (pl.filter (fun s => db.route s.name == k)).flatMap seriesBlock := by
  induction pl generalizing pks with
  | nil => simp [appendBlocks]
  | cons s pl ih =>
    rw [appendBlocks]
    rw [ih _ (by
      intro s' hs'
      rw [pkAddMany_length]
      exact hroute s' (by simp [hs']))]
    by_cases hk : db.route s.name = k
    · subst hk
      rw [pkAddMany_getD_same _ _ _ (hroute s (by simp))]
      simp [List.filter_cons]
    · rw [pkAddMany_getD_ne _ _ _ _ hk]
      simp [List.filter_cons, beq_iff_eq, hk]

theorem appendBlocks_init (db : Siridb) (pl : List SeriesEntry)
    (hroute : ∀ s ∈ pl, db.route s.name < db.poolCount) :
    appendBlocks db (initPackers db) pl
      = (List.range db.poolCount).map (subBatch db pl) := by
  have hlen0 : (initPackers db).length = db.poolCount := by simp [initPackers]
  apply List.ext_getElem
  · rw [appendBlocks_length]
    simp [initPackers]
  · intro i h1 h2
    have hi : i < db.poolCount := by
      rwa [appendBlocks_length, hlen0] at h1
    have hgd := appendBlocks_getD db pl (initPackers db) i
      (by intro s hs; rw [hlen0]; exact hroute s hs)
    rw [List.getD_eq_getElem _ _ h1] at hgd
    have hinit : (initPackers db).getD i [] = [QpToken.mapOpen] := by
      simp [initPackers, List.getD, List.getElem?_replicate, hi]
    rw [hinit] at hgd
    rw [hgd]
    simp [subBatch]

/-- The count returned by the classifier on a well-formed payload and the
shape of all per-pool packers (the top-level success lemma shared by the
claims below). -/
theorem assign_pools_ok (db : Siridb) (pl : List SeriesEntry)
    (hwf : ∀ s ∈ pl, wfSeries db db.poolCount s) :
    siridb_insert_assign_pools db (encodePayload pl)
      = .ok ((List.range db.poolCount).map (subBatch db pl), totalPoints pl) := by
  have hwf' : ∀ s ∈ pl, wfSeries db (initPackers db).length s := by
    intro s hs
    have := hwf s hs
    simpa [initPackers] using this
  have henc := seriesFrom_enc db pl [] (initPackers db) 0 hwf'
  rw [List.append_nil] at henc
  rw [siridb_insert_assign_pools]
  simp only [encodePayload, qp_next, qp_is_array, qp_is_map, Bool.false_eq_true,
    if_false, if_true, reduceIte]
  rw [assign_by_map_eq_seriesFrom, henc]
  rw [appendBlocks_init db pl (fun s hs => (hwf s hs).1)]
  simp [seriesFrom, qp_next, seriesLoop]

/-! ## Counting points in packers -/

theorem countP_encodePoint (p : Int × QpVal) :
    (encodePoint p).countP (fun t => t == QpToken.array 2) = 1 := by
  obtain ⟨t, v⟩ := p
  cases v <;> simp [encodePoint, valTok]

theorem countP_points (ps : List (Int × QpVal)) :
    (ps.flatMap encodePoint).countP (fun t => t == QpToken.array 2)
      = ps.length := by
  induction ps with
  | nil => simp
  | cons p ps ih =>
    simp [List.flatMap_cons, List.countP_append, ih, countP_encodePoint]
    omega

theorem packerPoints_seriesBlock (s : SeriesEntry) :
    packerPoints (seriesBlock s) = s.points.length := by
  simp [packerPoints, seriesBlock, List.countP_cons, List.countP_append,
    countP_points]

theorem countP_blocks (L : List SeriesEntry) :
    (L.flatMap seriesBlock).countP (fun t => t == QpToken.array 2)
      = totalPoints L := by
  induction L with
  | nil => simp [totalPoints]
  | cons s L ih =>
    have hs := packerPoints_seriesBlock s
    simp only [packerPoints] at hs
    simp [List.flatMap_cons, List.countP_append, ih, hs, totalPoints]

/-- Pool `k`'s sub-batch holds exactly the points of the series routed to
`k` — every point of the payload lands in exactly the packer of its series'
pool. -/
theorem packerPoints_subBatch (db : Siridb) (pl : List SeriesEntry)
    (k : Nat) : packerPoints (subBatch db pl k) = routedPoints db pl k := by
  simp [packerPoints, subBatch, List.countP_cons, routedPoints]
  have := countP_blocks (pl.filter (fun s => db.route s.name == k))
  simpa [packerPoints] using this

theorem totalPoints_append (A B : List SeriesEntry) :
    totalPoints (A ++ B) = totalPoints A + totalPoints B := by
  simp [totalPoints]

theorem routedPoints_cons (db : Siridb) (s : SeriesEntry)
    (pl : List SeriesEntry) (k : Nat) :
    routedPoints db (s :: pl) k
      = (if db.route s.name = k then s.points.length else 0)
          + routedPoints db pl k := by
  by_cases h : db.route s.name = k <;>
    simp [routedPoints, totalPoints, List.filter_cons, h]

/-- Summed over all pools, the routed point counts partition the payload's
total point count (each series is routed to exactly one pool). -/
theorem sum_routedPoints (db : Siridb) (pl : List SeriesEntry)
    (hroute : ∀ s ∈ pl, db.route s.name < db.poolCount) :
    ∑ k ∈ Finset.range db.poolCount, routedPoints db pl k
      = totalPoints pl := by
  induction pl with
  | nil => simp [routedPoints, totalPoints]
  | cons s pl ih =>
    have hs := hroute s (by simp)
    have ih' := ih (fun r hr => hroute r (by simp [hr]))
    simp only [routedPoints_cons]
    rw [Finset.sum_add_distrib, ih', Finset.sum_ite_eq]
    simp [hs, totalPoints]

/-! ## Running the classifier over a well-formed prefix -/

/-- Classifying a map payload that starts with the encoding of a well-formed
series prefix continues on the remaining tokens with the prefix's blocks
already written and its points already counted. -/
theorem assign_pools_pre_run (db : Siridb) (pre : List SeriesEntry)
    (D : List QpToken)
    (hwf : ∀ s ∈ pre, wfSeries db db.poolCount s) :
    siridb_insert_assign_pools db
        (QpToken.mapOpen :: (pre.flatMap encSeries ++ D))
      = seriesFrom db D (appendBlocks db (initPackers db) pre)
          (totalPoints pre) := by
  have hlen : (initPackers db).length = db.poolCount := by simp [initPackers]
  have hwf' : ∀ s ∈ pre, wfSeries db (initPackers db).length s := by
    intro s hs
    rw [hlen]
    exact hwf s hs
  rw [siridb_insert_assign_pools]
  simp only [qp_next, qp_is_array, qp_is_map, Bool.false_eq_true, if_false,
    reduceIte]
  rw [assign_by_map_eq_seriesFrom, seriesFrom_enc db pre D (initPackers db) 0
    hwf']
  simp

/-! ## Error behaviour of the point loop -/

theorem pointsLoop_not_int64 (db : Siridb) (pool : Nat) (t : QpToken)
    (rest : List QpToken) (pks : List (List QpToken)) (count : Nat)
    (ht : ∀ i : Int, t ≠ QpToken.int64 i) :
    pointsLoop db pool (some (QpToken.array 2)) (t :: rest) pks count
      = .error .expecting_integer_ts := by
  rw [pointsLoop]
  simp only [reduceIte]
  cases t
  case int64 i => exact absurd rfl (ht i)
  all_goals simp

theorem pointsLoop_bad_ts (db : Siridb) (pool : Nat) (ts : Int)
    (rest : List QpToken) (pks : List (List QpToken)) (count : Nat)
    (h : siridb_int64_valid_ts db ts = false) :
    pointsLoop db pool (some (QpToken.array 2))
        (QpToken.int64 ts :: rest) pks count
      = .error .timestamp_out_of_range := by
  rw [pointsLoop]
  simp [h]

theorem pointsLoop_bad_value (db : Siridb) (pool : Nat) (ts : Int)
    (t : QpToken) (rest : List QpToken) (pks : List (List QpToken))
    (count : Nat) (hts : siridb_int64_valid_ts db ts = true)
    (ht : isValueTok t = false) :
    pointsLoop db pool (some (QpToken.array 2))
        (QpToken.int64 ts :: t :: rest) pks count
      = .error .unsupported_value := by
  rw [pointsLoop]
  simp only [reduceIte, hts, if_true]
  cases t <;> simp_all [isValueTok]

/-! ## Claim theorems: the batch classifier -/

/-- C1: for every well-formed map payload (router in range, every series
non-empty, every timestamp in the window) classification via
`siridb_insert_assign_pools`/`assign_by_map` succeeds with the (non
negative) total point count; the packer of each pool `k` is exactly the
sub-batch of the series the router assigns to `k` (so every point is
written into exactly one pool's packer, namely its series' pool); the
number of points written into pool `k`'s packer is the number of points
routed to `k`; and these per-pool counts sum to the returned count. -/
theorem siridb_C1_classification (db : Siridb) (pl : List SeriesEntry)
    (hwf : ∀ s ∈ pl, wfSeries db db.poolCount s) :
    siridb_insert_assign_pools db (encodePayload pl)
        = .ok ((List.range db.poolCount).map (subBatch db pl), totalPoints pl)
    ∧ (∀ k, k < db.poolCount →
        packerPoints (subBatch db pl k) = routedPoints db pl k)
    ∧ ∑ k ∈ Finset.range db.poolCount, routedPoints db pl k
        = totalPoints pl := by
  refine ⟨assign_pools_ok db pl hwf, ?_, ?_⟩
  · intro k _
    exact packerPoints_subBatch db pl k
  · exact sum_routedPoints db pl (fun s hs => (hwf s hs).1)

/-- Witness for C1: the concrete two-pool payload `plW` under `dbW`. -/
theorem siridb_C1_classification_witness :
    siridb_insert_assign_pools dbW (encodePayload plW)
        = .ok ((List.range dbW.poolCount).map (subBatch dbW plW),
            totalPoints plW)
    ∧ packerPoints (subBatch dbW plW 1) = routedPoints dbW plW 1
    ∧ ∑ k ∈ Finset.range dbW.poolCount, routedPoints dbW plW k
        = totalPoints plW := by
  have h := siridb_C1_classification dbW plW (by decide)
  exact ⟨h.1, h.2.1 1 (by decide), h.2.2⟩

/-- C2: for every series `s` of a well-formed payload, the sub-batch built
for `pool_of(s)` contains, as one contiguous run, `s`'s block: its name
followed by exactly `s.points` re-encoded element for element in the input
order. -/
theorem siridb_C2_series_order (db : Siridb) (pl : List SeriesEntry)
    (hwf : ∀ s ∈ pl, wfSeries db db.poolCount s) :
    siridb_insert_assign_pools db (encodePayload pl)
        = .ok ((List.range db.poolCount).map (subBatch db pl), totalPoints pl)
    ∧ ∀ s ∈ pl, containsSeriesBlock (subBatch db pl (db.route s.name)) s := by
  refine ⟨assign_pools_ok db pl hwf, ?_⟩
  intro s hs
  have hmem : s ∈ pl.filter (fun r => db.route r.name == db.route s.name) := by
    simp [List.mem_filter, hs]
  obtain ⟨l1, l2, hsplit⟩ := List.append_of_mem hmem
  refine ⟨QpToken.mapOpen :: l1.flatMap seriesBlock, l2.flatMap seriesBlock,
    ?_⟩
  simp [subBatch, hsplit, List.flatMap_append]

/-- Witness for C2 at the concrete payload `plW` under `dbW`. -/
theorem siridb_C2_series_order_witness :
    siridb_insert_assign_pools dbW (encodePayload plW)
        = .ok ((List.range dbW.poolCount).map (subBatch dbW plW),
            totalPoints plW)
    ∧ containsSeriesBlock (subBatch dbW plW (dbW.route [121]))
        ⟨[121], [(1001, QpVal.vdouble 5), (1002, QpVal.vraw [97])]⟩ := by
  have h := siridb_C2_series_order dbW plW (by decide)
  exact ⟨h.1, h.2 ⟨[121], [(1001, QpVal.vdouble 5), (1002, QpVal.vraw [97])]⟩
    (by decide)⟩

/-- C3: during classification of a map payload (here: after any well-formed
series prefix), a series whose point array does not start with an `ARRAY2`
header fails the whole batch with `EXPECTING_AT_LEAST_ONE_POINT`; within a
point, a non-`INT64` first element fails with `EXPECTING_INTEGER_TS`, a
timestamp outside `[ts_min, ts_max]` fails with `TIMESTAMP_OUT_OF_RANGE`,
and a value token that is not `INT64`, `DOUBLE` or `RAW` fails with
`UNSUPPORTED_VALUE`. -/
theorem siridb_C3_point_validation (db : Siridb) (pre : List SeriesEntry)
    (hwf : ∀ s ∈ pre, wfSeries db db.poolCount s) :
    (∀ (name : List Nat) (t : QpToken) (rest : List QpToken),
        t ≠ QpToken.array 2 →
        siridb_insert_assign_pools db
            (QpToken.mapOpen :: (pre.flatMap encSeries ++
              (QpToken.raw name :: QpToken.arrayOpen :: t :: rest)))
          = .error .expecting_at_least_one_point)
    ∧ (∀ (name : List Nat) (t : QpToken) (rest : List QpToken),
        (∀ i : Int, t ≠ QpToken.int64 i) →
        siridb_insert_assign_pools db
            (QpToken.mapOpen :: (pre.flatMap encSeries ++
              (QpToken.raw name :: QpToken.arrayOpen :: QpToken.array 2 ::
                t :: rest)))
          = .error .expecting_integer_ts)
    ∧ (∀ (name : List Nat) (ts : Int) (rest : List QpToken),
        siridb_int64_valid_ts db ts = false →
        siridb_insert_assign_pools db
            (QpToken.mapOpen :: (pre.flatMap encSeries ++
              (QpToken.raw name :: QpToken.arrayOpen :: QpToken.array 2 ::
                QpToken.int64 ts :: rest)))
          = .error .timestamp_out_of_range)
    ∧ (∀ (name : List Nat) (ts : Int) (t : QpToken) (rest : List QpToken),
        siridb_int64_valid_ts db ts = true → isValueTok t = false →
        siridb_insert_assign_pools db
            (QpToken.mapOpen :: (pre.flatMap encSeries ++
              (QpToken.raw name :: QpToken.arrayOpen :: QpToken.array 2 ::
                QpToken.int64 ts :: t :: rest)))
          = .error .unsupported_value) := by
  refine ⟨?_, ?_, ?_, ?_⟩
  · intro name t rest ht
    rw [assign_pools_pre_run db pre _ hwf, seriesFrom]
    simp only [qp_next]
    rw [seriesLoop]
    simp [qp_is_array, ht]
  · intro name t rest ht
    rw [assign_pools_pre_run db pre _ hwf, seriesFrom]
    simp only [qp_next]
    rw [seriesLoop]
    simp only [qp_is_array, reduceIte]
    split
    · rename_i e hp
      rw [pointsLoop_not_int64 db _ t rest _ _ ht] at hp
      simp only [Except.error.injEq] at hp
      rw [← hp]
    · rename_i tp' toks' pks' count' hp
      rw [pointsLoop_not_int64 db _ t rest _ _ ht] at hp
      cases hp
  · intro name ts rest hts
    rw [assign_pools_pre_run db pre _ hwf, seriesFrom]
    simp only [qp_next]
    rw [seriesLoop]
    simp only [qp_is_array, reduceIte]
    split
    · rename_i e hp
      rw [pointsLoop_bad_ts db _ ts rest _ _ hts] at hp
      simp only [Except.error.injEq] at hp
      rw [← hp]
    · rename_i tp' toks' pks' count' hp
      rw [pointsLoop_bad_ts db _ ts rest _ _ hts] at hp
      cases hp
  · intro name ts t rest hts ht
    rw [assign_pools_pre_run db pre _ hwf, seriesFrom]
    simp only [qp_next]
    rw [seriesLoop]
    simp only [qp_is_array, reduceIte]
    split
    · rename_i e hp
      rw [pointsLoop_bad_value db _ ts t rest _ _ hts ht] at hp
      simp only [Except.error.injEq] at hp
      rw [← hp]
    · rename_i tp' toks' pks' count' hp
      rw [pointsLoop_bad_value db _ ts t rest _ _ hts ht] at hp
      cases hp

/-- Witness for C3: the four validation errors at concrete defective
payloads following the well-formed prefix `plW` under `dbW`. -/
theorem siridb_C3_point_validation_witness :
    siridb_insert_assign_pools dbW
        (QpToken.mapOpen :: (plW.flatMap encSeries ++
          (QpToken.raw [122] :: QpToken.arrayOpen :: QpToken.arrayClose ::
            [])))
      = .error .expecting_at_least_one_point
    ∧ siridb_insert_assign_pools dbW
        (QpToken.mapOpen :: (plW.flatMap encSeries ++
          (QpToken.raw [122] :: QpToken.arrayOpen :: QpToken.array 2 ::
            QpToken.raw [55] :: [])))
      = .error .expecting_integer_ts
    ∧ siridb_insert_assign_pools dbW
        (QpToken.mapOpen :: (plW.flatMap encSeries ++
          (QpToken.raw [122] :: QpToken.arrayOpen :: QpToken.array 2 ::
            QpToken.int64 (-5) :: [])))
      = .error .timestamp_out_of_range
    ∧ siridb_insert_assign_pools dbW
        (QpToken.mapOpen :: (plW.flatMap encSeries ++
          (QpToken.raw [122] :: QpToken.arrayOpen :: QpToken.array 2 ::
            QpToken.int64 7 :: QpToken.arrayOpen :: [])))
      = .error .unsupported_value := by
  have h := siridb_C3_point_validation dbW plW (by decide)
  exact ⟨h.1 [122] QpToken.arrayClose [] (by decide),
    h.2.1 [122] (QpToken.raw [55]) [] (by intro i; simp),
    h.2.2.1 [122] (-5) [] (by decide),
    h.2.2.2 [122] 7 QpToken.arrayOpen [] (by decide) (by decide)⟩

/-- C4: the classifier's top-level dispatch: a top-level token that is
neither a map nor an array yields `EXPECTING_MAP_OR_ARRAY` (so does an
empty stream); a flat array returns 0 with the freshly initialized packers
untouched (no per-pool output); after a well-formed series prefix, a
pending token that is neither another series name (`RAW`) nor the end of
the map/stream yields the `EXPECTING_SERIES_NAME_AND_POINTS` error; and on
a fully well-formed payload the total point count is returned. -/
theorem siridb_C4_toplevel_and_result (db : Siridb)
    (pre : List SeriesEntry)
    (hwf : ∀ s ∈ pre, wfSeries db db.poolCount s) :
    (∀ toks : List QpToken,
        qp_is_array (qp_next toks).1 = false →
        qp_is_map (qp_next toks).1 = false →
        siridb_insert_assign_pools db toks = .error .expecting_map_or_array)
    ∧ (∀ rest : List QpToken,
        siridb_insert_assign_pools db (QpToken.arrayOpen :: rest)
          = .ok (initPackers db, 0))
    ∧ (∀ (t : QpToken) (rest : List QpToken),
        (∀ b, t ≠ QpToken.raw b) → t ≠ QpToken.mapClose →
        siridb_insert_assign_pools db
            (QpToken.mapOpen :: (pre.flatMap encSeries ++ (t :: rest)))
          = .error .expecting_series_name)
    ∧ siridb_insert_assign_pools db (encodePayload pre)
        = .ok ((List.range db.poolCount).map (subBatch db pre),
            totalPoints pre) := by
  refine ⟨?_, ?_, ?_, assign_pools_ok db pre hwf⟩
  · intro toks h1 h2
    cases toks with
    | nil =>
      rw [siridb_insert_assign_pools]
      simp_all [qp_next]
    | cons t ts =>
      simp only [qp_next] at h1 h2
      rw [siridb_insert_assign_pools]
      simp [qp_next, h1, h2]
  · intro rest
    rw [siridb_insert_assign_pools]
    simp [qp_next, qp_is_array]
  · intro t rest htr htm
    rw [assign_pools_pre_run db pre _ hwf, seriesFrom]
    simp only [qp_next]
    cases t
    case raw b => exact absurd rfl (htr b)
    all_goals (rw [seriesLoop]; all_goals simp_all)

/-- Witness for C4: the three rejections and the success at concrete
inputs, with prefix `plW` under `dbW`. -/
theorem siridb_C4_toplevel_and_result_witness :
    siridb_insert_assign_pools dbW [QpToken.int64 5]
        = .error .expecting_map_or_array
    ∧ siridb_insert_assign_pools dbW
        [QpToken.arrayOpen, QpToken.int64 3] = .ok (initPackers dbW, 0)
    ∧ siridb_insert_assign_pools dbW
        (QpToken.mapOpen :: (plW.flatMap encSeries ++ ([QpToken.int64 9])))
      = .error .expecting_series_name
    ∧ siridb_insert_assign_pools dbW (encodePayload plW)
        = .ok ((List.range dbW.poolCount).map (subBatch dbW plW),
            totalPoints plW) := by
  have h := siridb_C4_toplevel_and_result dbW plW (by decide)
  exact ⟨h.1 [QpToken.int64 5] (by decide) (by decide),
    h.2.1 [QpToken.int64 3],
    h.2.2.1 (QpToken.int64 9) [] (by intro b; simp) (by simp),
    h.2.2.2⟩

/-- C8: a payload in which the same series name occurs twice is neither
merged nor rejected: classification succeeds counting both occurrences'
points, and the sub-batch of that name's pool ends with two separate map
entries for the same (NUL-terminated) key, each with its own point
array, in payload order. -/
theorem siridb_C8_duplicate_series (db : Siridb) (pre : List SeriesEntry)
    (n : List Nat) (ps1 ps2 : List (Int × QpVal))
    (hwf : ∀ s ∈ pre ++ [⟨n, ps1⟩, ⟨n, ps2⟩], wfSeries db db.poolCount s) :
    siridb_insert_assign_pools db
        (encodePayload (pre ++ [⟨n, ps1⟩, ⟨n, ps2⟩]))
      = .ok ((List.range db.poolCount).map
            (subBatch db (pre ++ [⟨n, ps1⟩, ⟨n, ps2⟩])),
          totalPoints pre + (ps1.length + ps2.length))
    ∧ subBatch db (pre ++ [⟨n, ps1⟩, ⟨n, ps2⟩]) (db.route n)
        = subBatch db pre (db.route n)
            ++ (seriesBlock ⟨n, ps1⟩ ++ seriesBlock ⟨n, ps2⟩) := by
  constructor
  · have h := assign_pools_ok db (pre ++ [⟨n, ps1⟩, ⟨n, ps2⟩]) hwf
    rw [h, totalPoints_append]
    simp [totalPoints]
  · simp [subBatch, List.filter_append, List.flatMap_append]

/-- Witness for C8: duplicate series name `[120]` after the prefix `plW`
under `dbW`. -/
theorem siridb_C8_duplicate_series_witness :
    siridb_insert_assign_pools dbW
        (encodePayload (plW ++ [⟨[120], [(1, QpVal.vint 4)]⟩,
          ⟨[120], [(2, QpVal.vint 5)]⟩]))
      = .ok ((List.range dbW.poolCount).map
            (subBatch dbW (plW ++ [⟨[120], [(1, QpVal.vint 4)]⟩,
              ⟨[120], [(2, QpVal.vint 5)]⟩])), totalPoints plW + (1 + 1))
    ∧ subBatch dbW (plW ++ [⟨[120], [(1, QpVal.vint 4)]⟩,
          ⟨[120], [(2, QpVal.vint 5)]⟩]) (dbW.route [120])
        = subBatch dbW plW (dbW.route [120])
            ++ (seriesBlock ⟨[120], [(1, QpVal.vint 4)]⟩
              ++ seriesBlock ⟨[120], [(2, QpVal.vint 5)]⟩) :=
  siridb_C8_duplicate_series dbW plW [120] [(1, QpVal.vint 4)]
    [(2, QpVal.vint 5)] (by decide)

/-! ## Claim theorems: the insert dispatcher -/

theorem localLoop_one_series :
    localLoop (some (QpToken.raw [120, 0]))
        [QpToken.arrayOpen, QpToken.array 2, QpToken.int64 1000,
          QpToken.int64 1, QpToken.arrayClose] [] []
      = ([([120], QpTag.tagInt64)], [([120], QpTag.tagInt64)]) := by
  rw [localLoop]
  simp only [qp_next, cstr, siridb_qp_map_tp]
  split
  · rename_i toks5 hs
    simp only [skipPoints] at hs
    rw [Prod.mk.injEq] at hs
    obtain ⟨h1, h2⟩ := hs
    subst h2
    rw [localLoop]
    all_goals simp [cstr, List.takeWhile]
  · rename_i tp toks5 hne heq
    simp only [skipPoints] at heq
    rw [Prod.mk.injEq] at heq
    exact absurd heq.1.symm hne

/-- C5 (code defect in `send_points_to_pools`): on the local-pool path the
get-or-create side is performed — on this classified job the dispatcher
creates series `[120]` in the empty registry with value type `tagInt64`,
inferred from the first point's `INT64` value — but no `(timestamp, value)`
pair is ever handed to the storage collaborator: the local sub-batch holds
a point, yet the run's append trace is empty (the source reads the points
into `qp_series_ts`/`qp_series_val` and discards them). -/
theorem siridb_C5_local_no_append :
    (send_points_to_pools insW 0 []).created = [([120], QpTag.tagInt64)]
    ∧ (send_points_to_pools insW 0 []).reg = [([120], QpTag.tagInt64)]
    ∧ (send_points_to_pools insW 0 []).appends = []
    ∧ packerPoints (insW.packer.getD 0 []) = 1 := by
  have hpk : insW.packer.getD 0 []
      = [QpToken.mapOpen, QpToken.raw [120, 0], QpToken.arrayOpen,
          QpToken.array 2, QpToken.int64 1000, QpToken.int64 1,
          QpToken.arrayClose] := by decide
  have hlen : 0 < insW.packer.length := by decide
  have hres : send_points_to_pools insW 0 []
      = { reg := [([120], QpTag.tagInt64)],
          created := [([120], QpTag.tagInt64)],
          appends := [], sentToPools := [],
          replies := [⟨insW.pid, "success_msg",
            "Inserted " ++ toString insW.size
              ++ " point(s) successfully."⟩] } := by
    rw [send_points_to_pools, if_pos hlen, hpk]
    simp only [qp_next]
    rw [localLoop_one_series]
  rw [hres]
  refine ⟨rfl, rfl, rfl, by decide⟩

/-- C6 (code defect in `send_points_to_pools`): the classifier does put
into each pool's sub-batch exactly the series routed to it — on this
two-pool job, pool 1's sub-batch is the non-empty sub-batch of the series
routed to pool 1 — but the dispatcher transmits nothing: its trace of
packages sent to peer pools is empty; the non-local packers are only
iterated past and later freed. -/
theorem siridb_C6_no_remote_send :
    siridb_insert_assign_pools dbW (encodePayload plW6)
        = .ok (insW.packer, insW.size)
    ∧ insW.packer.getD 1 [] = subBatch dbW plW6 1
    ∧ insW.packer.getD 1 [] ≠ [QpToken.mapOpen]
    ∧ (send_points_to_pools insW 0 []).sentToPools = [] := by
  refine ⟨?_, by decide, by decide, rfl⟩
  exact assign_pools_ok dbW plW6 (by decide)

/-- C7 (code defect in `send_points_to_pools`): exactly one reply package
is sent to the client, but it is unconditionally the success map
`{"success_msg": "Inserted N point(s) successfully."}` with `N` the total
point count in decimal — on this two-pool job no package was ever sent to
pool 1 (so no pool acknowledged anything, and pool 1 never received its
non-empty sub-batch), yet the single reply claims both points were
inserted; no error-reply path exists in the source. -/
theorem siridb_C7_single_unconditional_reply :
    (send_points_to_pools insW 0 []).replies
        = [⟨insW.pid, "success_msg", "Inserted 2 point(s) successfully."⟩]
    ∧ (send_points_to_pools insW 0 []).replies.length = 1
    ∧ (send_points_to_pools insW 0 []).sentToPools = []
    ∧ insW.size = 2
    ∧ insW.packer.getD 1 [] ≠ [QpToken.mapOpen] := by
  refine ⟨?_, rfl, rfl, by decide, by decide⟩
  show [(⟨insW.pid, "success_msg", "Inserted " ++ toString insW.size
      ++ " point(s) successfully."⟩ : ReplyPkg)] = _
  decide

/-! ## Claim theorems: the admin client timeout -/

/-- C9: the request timer default is 15000 ms; once it fires
(`CLIENT_request_timeout`) the timeout flag is set; no later event — more
packages arriving or the timer firing again — ever clears it; and while it
is set, `CLIENT_on_data` only logs and drops every incoming package,
leaving the state unchanged and dispatching nothing. -/
theorem siridb_C9_timeout_drops_replies (c : AdmClient)
    (es : List ClientEvent) (tp : CProto) :
    CLIENT_REQUEST_TIMEOUT = 15000
    ∧ timedOut (clientStep c ClientEvent.timerFires)
    ∧ (timedOut c → timedOut (runEvents c es))
    ∧ (timedOut c →
        CLIENT_on_data c tp = (c, DataReaction.droppedTimedOut)) := by
  have hset : ∀ d : AdmClient, timedOut (clientStep d ClientEvent.timerFires) := by
    intro d
    show (d.flags ||| 1) &&& 1 ≠ 0
    have h2 : (d.flags ||| 1).testBit 0 = true := by simp
    rw [Nat.testBit_zero] at h2
    rw [Nat.and_one_is_mod]
    have := of_decide_eq_true h2
    omega
  have hdrop : ∀ (d : AdmClient) (t : CProto), timedOut d →
      CLIENT_on_data d t = (d, DataReaction.droppedTimedOut) := by
    intro d t hd
    have hd' : d.flags &&& CLIENT_FLAGS_TIMEOUT ≠ 0 := hd
    unfold CLIENT_on_data
    rw [if_pos hd']
  have hkeep : ∀ (d : AdmClient) (e : ClientEvent), timedOut d →
      timedOut (clientStep d e) := by
    intro d e hd
    cases e with
    | timerFires => exact hset d
    | dataArrives t => rw [clientStep, hdrop d t hd]; exact hd
  refine ⟨rfl, hset c, ?_, fun hd => hdrop c tp hd⟩
  intro hd
  induction es generalizing c with
  | nil => exact hd
  | cons e es ih => exact ih (clientStep c e) (hkeep c e hd)

/-- Witness for C9 at a concrete timed-out client state, a concrete later
event trace, and a concrete incoming package type. -/
theorem siridb_C9_timeout_drops_replies_witness :
    CLIENT_REQUEST_TIMEOUT = 15000
    ∧ timedOut (clientStep ⟨CLIENT_REQUEST_STATUS, 1⟩ ClientEvent.timerFires)
    ∧ timedOut (runEvents ⟨CLIENT_REQUEST_STATUS, 1⟩
        [ClientEvent.dataArrives CProto.resQuery, ClientEvent.timerFires])
    ∧ CLIENT_on_data ⟨CLIENT_REQUEST_STATUS, 1⟩ CProto.resAuthSuccess
        = (⟨CLIENT_REQUEST_STATUS, 1⟩, DataReaction.droppedTimedOut) := by
  have h := siridb_C9_timeout_drops_replies ⟨CLIENT_REQUEST_STATUS, 1⟩
    [ClientEvent.dataArrives CProto.resQuery, ClientEvent.timerFires]
    CProto.resAuthSuccess
  exact ⟨h.1, h.2.1, h.2.2.1 (by decide), h.2.2.2 (by decide)⟩

/-! ## Claim theorem: the error message table -/

/-- C10: the message table has `SIRIDB_INSERT_ERR_SIZE = 7` entries; every
error code of the enumeration lies in `[-7, -1]`, so
`siridb_insert_err_msg` indexes the table at `e + SIRIDB_INSERT_ERR_SIZE ∈
[0, 6]` and returns that code's fixed non-empty prose message; for any
integer outside `[-7, -1]` the index falls outside the table
(out-of-bounds in C, `none` in the model). -/
theorem siridb_C10_err_msg_table :
    err_msg.length = SIRIDB_INSERT_ERR_SIZE
    ∧ (∀ e : siridb_insert_err,
        0 ≤ errCode e + (SIRIDB_INSERT_ERR_SIZE : Int)
        ∧ errCode e + (SIRIDB_INSERT_ERR_SIZE : Int) ≤ 6
        ∧ siridb_insert_err_msg (errCode e)
            = err_msg[(errCode e + (SIRIDB_INSERT_ERR_SIZE : Int)).toNat]?
        ∧ ∃ m, siridb_insert_err_msg (errCode e) = some m ∧ m ≠ "")
    ∧ (∀ e : Int, e < -7 ∨ -1 < e → siridb_insert_err_msg e = none) := by
  refine ⟨rfl, ?_, ?_⟩
  · intro e
    cases e <;>
      simp [errCode, siridb_insert_err_msg, err_msg, SIRIDB_INSERT_ERR_SIZE]
  · intro e he
    rcases he with h | h
    · have hneg : ¬ (0 ≤ e + (SIRIDB_INSERT_ERR_SIZE : Int)) := by
        simp [SIRIDB_INSERT_ERR_SIZE]
        omega
      rw [siridb_insert_err_msg, if_neg hneg]
    · have hpos : 0 ≤ e + (SIRIDB_INSERT_ERR_SIZE : Int) := by
        simp [SIRIDB_INSERT_ERR_SIZE]
        omega
      rw [siridb_insert_err_msg, if_pos hpos]
      apply List.getElem?_eq_none
      show err_msg.length ≤ _
      have : (7 : Nat) ≤ (e + (SIRIDB_INSERT_ERR_SIZE : Int)).toNat := by
        simp [SIRIDB_INSERT_ERR_SIZE]
        omega
      simpa [err_msg] using this

/-- Witness for C10: the lookup at code `-3` (timestamp out of range) and
the out-of-bounds lookup at `3`. -/
theorem siridb_C10_err_msg_table_witness :
    (∃ m, siridb_insert_err_msg
        (errCode siridb_insert_err.timestamp_out_of_range) = some m
      ∧ m ≠ "")
    ∧ siridb_insert_err_msg 3 = none := by
  have h := siridb_C10_err_msg_table
  exact ⟨(h.2.1 siridb_insert_err.timestamp_out_of_range).2.2.2,
    h.2.2 3 (by right; decide)⟩

end SiriDBInsert

